import Mathlib

/-!
Verification of the flower repository's coordination layer against its
specification.  Shallow embedding of:

* `examples/advanced-pytorch/pytorch-example-low-level/pytorch_example_low_level/server_app.py`
  (coordinator round loop, message construction, parameter aggregation);
* `src/py/flwr/server/superlink/fleet/vce/vce_api.py`
  (virtual client engine setup: node registration, per-node state, backend config);
* `dev/build-docker-image-matrix.py` (docker image matrix generation).

Numeric tensor entries are modelled as rationals; Python dicts are modelled as
association lists with insertion-order semantics (updating an existing key keeps
its position, a new key is appended).
-/

namespace Flower

/-- A Python state dict: ordered association of parameter names to values. -/
abbrev StateDict := List (String × ℚ)

/-- Read `d[k]`: `none` models a Python `KeyError`. -/
def dictGet (d : StateDict) (k : String) : Option ℚ :=
  (d.find? (fun p => p.1 = k)).map Prod.snd

/-- Write `d[k] = v` with Python dict semantics: an existing key keeps its
position, a fresh key is appended at the end. -/
def dictSet (d : StateDict) (k : String) (v : ℚ) : StateDict :=
  if (d.find? (fun p => p.1 = k)).isSome then
    d.map (fun p => if p.1 = k then (k, v) else p)
  else
    d ++ [(k, v)]

/-- One pass of `for key, value in d.items(): acc[key] = np.add(acc[key], value)`
from `aggregate_parameters_from_messages`.  Reading a key absent from `acc`
raises `KeyError`, modelled as `none`. -/
def addItems (acc : StateDict) : StateDict → Option StateDict
  | [] => some acc
  | (k, v) :: rest =>
    match dictGet acc k with
    | none => none
    | some w => addItems (dictSet acc k (w + v)) rest

/-- A reply `Message` as consumed by `aggregate_parameters_from_messages`:
`has_error()` plus the state dict extracted from the
`updated_model_dict` parameters record of `msg.content`. -/
structure Message where
  hasError : Bool
  content : StateDict
deriving DecidableEq, Repr

/-- `aggregate_parameters_from_messages(messages)` from `server_app.py`.

The Python code sets `new_global_dict = state_dict_list[0]` (an alias, not a
copy) and then loops `for d in state_dict_list`, adding every dict — the first
iteration adds `state_dict_list[0]` into itself.  Since dict keys are unique and
each `d.items()` read of a key precedes the single write to that key, that
aliased first iteration doubles every value in place, which is exactly
`addItems d0 d0`; so the whole loop is a fold of `addItems` over the full list
starting from `d0`.  Finally every entry is divided by `len(state_dict_list)`.
`state_dict_list[0]` on an empty list raises `IndexError`, modelled as `none`. -/
def aggregate_parameters_from_messages (messages : List Message) : Option StateDict :=
  let state_dict_list := (messages.filter (fun m => !m.hasError)).map Message.content
  match state_dict_list with
  | [] => none
  | d0 :: _ =>
    (List.foldlM addItems d0 state_dict_list).map
      (fun g => g.map (fun p => (p.1, p.2 / (state_dict_list.length : ℚ))))

/-- C3: the claim says the aggregate is the arithmetic mean of the received
values, but the code double-counts the first error-free message because
`new_global_dict` aliases `state_dict_list[0]`: a single error-free message
carrying the state dict `w := 1` aggregates to `w := 2`, not the mean `1`. -/
theorem aggregate_single_message_doubles :
    aggregate_parameters_from_messages [⟨false, [("w", 1)]⟩] = some [("w", 2)] ∧
      (2 : ℚ) ≠ 1 := by
  constructor
  · simp [aggregate_parameters_from_messages, addItems, dictGet, dictSet]
    norm_num
  · norm_num

/-- C7: the result of `aggregate_parameters_from_messages` depends only on the
error-free messages of the input: any two message lists whose error-free
sublists agree aggregate identically. -/
theorem aggregate_depends_only_on_error_free (ms₁ ms₂ : List Message)
    (h : ms₁.filter (fun m => !m.hasError) = ms₂.filter (fun m => !m.hasError)) :
    aggregate_parameters_from_messages ms₁ = aggregate_parameters_from_messages ms₂ := by
  unfold aggregate_parameters_from_messages
  rw [h]

/-- Witness for C7 at concrete inputs differing only in errored messages. -/
theorem aggregate_depends_only_on_error_free_witness :
    aggregate_parameters_from_messages [⟨true, [("b", 7)]⟩, ⟨false, [("w", 4)]⟩]
      = aggregate_parameters_from_messages [⟨false, [("w", 4)]⟩, ⟨true, [("w", 9)]⟩] :=
  aggregate_depends_only_on_error_free _ _ (by decide)

/-- C8: on an input that is empty or whose messages all carry errors,
`aggregate_parameters_from_messages` produces no aggregated state dict
(the Python code fails at `state_dict_list[0]` with an `IndexError`). -/
theorem aggregate_all_errors_no_result (ms : List Message)
    (h : ∀ m ∈ ms, m.hasError = true) :
    aggregate_parameters_from_messages ms = none := by
  unfold aggregate_parameters_from_messages
  have hnil : ms.filter (fun m => !m.hasError) = [] := by
    rw [List.filter_eq_nil_iff]
    intro m hm
    simp [h m hm]
  rw [hnil]
  rfl

/-- Witness for C8 on a one-element all-error list. -/
theorem aggregate_all_errors_no_result_witness :
    aggregate_parameters_from_messages [⟨true, [("w", 1)]⟩] = none :=
  aggregate_all_errors_no_result _ (by decide)

/-! ### `construct_messages` (server_app.py) -/

/-- `MessageType` request kinds of the flwr framework. -/
inductive MessageType
  | train
  | evaluate
  | query
deriving DecidableEq, Repr

/-- `ConfigsRecord(\x7b"lr": lr\x7d)`: the config record sent each round. -/
structure ConfigsRecord where
  lr : ℚ
deriving DecidableEq, Repr

/-- A `RecordSet` payload: dictionaries of config records and parameter records. -/
structure RecordSet where
  configs_records : List (String × ConfigsRecord)
  parameters_records : List (String × StateDict)
deriving DecidableEq, Repr

/-- An outgoing task message created by the driver. -/
structure OutMessage where
  content : RecordSet
  message_type : MessageType
  dst_node_id : Nat
  group_id : String
deriving DecidableEq, Repr

/-- Modelled from the spec: `driver.create_message` is framework code outside
this repository; per the spec a task records `group_id`, `dst`, `kind` and
payload, and its `dst` is fixed at creation. -/
def create_message (content : RecordSet) (message_type : MessageType)
    (dst_node_id : Nat) (group_id : String) : OutMessage :=
  ⟨content, message_type, dst_node_id, group_id⟩

/-- `construct_messages(global_model, driver, node_ids, msg_type, server_round)`
from `server_app.py`: one message per node id, all carrying the same
`RecordSet` (global model parameters plus an `lr` config with decay at round
10) and `group_id = str(server_round)`. -/
def construct_messages (global_model_state_dict : StateDict) (node_ids : List Nat)
    (msg_type : MessageType) (server_round : Nat) : List OutMessage :=
  let p_record := global_model_state_dict
  let lr : ℚ := if server_round < 10 then 1/10 else (1/10) / 2
  let c_record : ConfigsRecord := ⟨lr⟩
  let recordset : RecordSet :=
    ⟨[("config", c_record)], [("global_model_record", p_record)]⟩
  node_ids.map (fun node_id =>
    create_message recordset msg_type node_id (toString server_round))

/-- C4: `construct_messages` returns exactly one message per node id in input
order — the destination ids of the output, read in order, are exactly the
input `node_ids` — and every message of the batch carries
`group_id = str(server_round)`. -/
theorem construct_messages_one_per_node (sd : StateDict) (node_ids : List Nat)
    (mt : MessageType) (server_round : Nat) :
    (construct_messages sd node_ids mt server_round).map OutMessage.dst_node_id
        = node_ids ∧
      (construct_messages sd node_ids mt server_round).map OutMessage.group_id
        = node_ids.map (fun _ => toString server_round) := by
  constructor
  · simp [construct_messages, create_message, Function.comp_def, List.map_id']
  · simp [construct_messages, create_message, Function.comp_def, List.map_const']

/-! ### The coordinator round loop of `main` (server_app.py)

The loop body of `main` performs, in program order: `driver.get_node_ids()`,
`construct_messages(...)`, `driver.send_and_receive(messages)`,
`aggregate_parameters_from_messages(replies)`, then central evaluation.  The
trace below records those five calls for each `server_round` in
`range(num_rounds)`. -/

/-- One coordinator-side call in the round loop of `main`, tagged with its
`server_round`. -/
inductive Event
  | getNodeIds (round : Nat)
  | constructMessages (round : Nat)
  | sendAndReceive (round : Nat)
  | aggregate (round : Nat)
  | evaluate (round : Nat)
deriving DecidableEq, Repr

/-- The calls of one iteration of the round loop, in program order. -/
def roundEvents (r : Nat) : List Event :=
  [.getNodeIds r, .constructMessages r, .sendAndReceive r, .aggregate r, .evaluate r]

/-- The full trace of `for server_round in range(num_rounds)` in `main`. -/
def mainTrace : Nat → List Event
  | 0 => []
  | n + 1 => mainTrace n ++ roundEvents n

/-- The round an event belongs to. -/
def eventRound : Event → Nat
  | .getNodeIds r => r
  | .constructMessages r => r
  | .sendAndReceive r => r
  | .aggregate r => r
  | .evaluate r => r

/-- The position of an event inside its round's five-call body. -/
def eventOffset : Event → Nat
  | .getNodeIds _ => 0
  | .constructMessages _ => 1
  | .sendAndReceive _ => 2
  | .aggregate _ => 3
  | .evaluate _ => 4

theorem mainTrace_length (n : Nat) : (mainTrace n).length = 5 * n := by
  induction n with
  | zero => rfl
  | succ n ih =>
    simp [mainTrace, roundEvents, ih]
    omega

/-- Every occurrence of an event in the trace sits at the unique index
determined by its round and its offset in the loop body. -/
theorem mainTrace_get?_eq (n i : Nat) (e : Event)
    (h : (mainTrace n).get? i = some e) :
    i = 5 * eventRound e + eventOffset e := by
  induction n with
  | zero => simp [mainTrace] at h
  | succ n ih =>
    rw [mainTrace] at h
    by_cases hlt : i < (mainTrace n).length
    · rw [List.get?_append hlt] at h
      exact ih h
    · rw [List.get?_append_right (le_of_not_lt hlt)] at h
      have hlen := mainTrace_length n
      have hbound : i - (mainTrace n).length < (roundEvents n).length :=
        List.get?_eq_some.mp h |>.1
      have h5 : (roundEvents n).length = 5 := rfl
      set o := i - (mainTrace n).length with ho
      have ho5 : o < 5 := h5 ▸ hbound
      interval_cases o <;>
        simp [roundEvents, List.get?] at h <;>
        subst h <;> simp [eventRound, eventOffset] <;> omega

/-- C5: no pipelining of rounds in `main` — in the coordinator trace, the
`construct_messages` call of round `n+1` occurs strictly after the
`send_and_receive` rendezvous of round `n` has returned. -/
theorem no_round_pipelining (num_rounds n i j : Nat)
    (hci : (mainTrace num_rounds).get? i = some (Event.constructMessages (n + 1)))
    (hsj : (mainTrace num_rounds).get? j = some (Event.sendAndReceive n)) :
    j < i := by
  have h1 := mainTrace_get?_eq num_rounds i _ hci
  have h2 := mainTrace_get?_eq num_rounds j _ hsj
  simp [eventRound, eventOffset] at h1 h2
  omega

/-- Witness for C5 with two rounds: `construct_messages` of round 1 is at
trace index 6, after the round-0 `send_and_receive` at index 2. -/
theorem no_round_pipelining_witness :
    (mainTrace 2).get? 6 = some (Event.constructMessages 1) ∧
      (mainTrace 2).get? 2 = some (Event.sendAndReceive 0) ∧ 2 < 6 :=
  ⟨by decide, by decide, no_round_pipelining 2 0 6 2 (by decide) (by decide)⟩

/-! ### `vce_api.py`: node registration and VCE setup -/

/-- A Python dict with `int` keys (node ids): `d[k] = v` keeps an existing
key's position and appends a fresh key at the end. -/
def natDictSet (d : List (Nat × Nat)) (k v : Nat) : List (Nat × Nat) :=
  if (d.find? (fun p => p.1 = k)).isSome then
    d.map (fun p => if p.1 = k then (k, v) else p)
  else
    d ++ [(k, v)]

/-- The superlink state reached through `state_factory.state()`, as seen by
`vce_api.py`: `state.create_node()` is superlink code outside the three source
files, so its id allocation is kept abstract — `gen n` is the id returned by
the `n`-th `create_node` call of this state, and `created` lists the ids
registered so far.  The spec's contract that `register()` never returns an id
already in use is carried as an injectivity hypothesis on `gen` where a claim
needs it. -/
structure LinkState where
  gen : Nat → Nat
  created : List Nat

/-- `state.create_node()`: allocate the next id and record it as registered. -/
def LinkState.create_node (st : LinkState) : Nat × LinkState :=
  let node_id := st.gen st.created.length
  (node_id, ⟨st.gen, st.created ++ [node_id]⟩)

/-- `_register_nodes(num_nodes, state_factory)` from `vce_api.py`: for each
`i in range(num_nodes)`, call `state.create_node()` and set
`nodes_mapping[node_id] = i`; returns the mapping together with the state. -/
def _register_nodes (num_nodes : Nat) (st : LinkState) :
    List (Nat × Nat) × LinkState :=
  (List.range num_nodes).foldl
    (fun acc i =>
      let r := acc.2.create_node
      (natDictSet acc.1 r.1 i, r.2))
    ([], st)

theorem natDictSet_of_fresh (d : List (Nat × Nat)) (k v : Nat)
    (h : ∀ p ∈ d, p.1 ≠ k) : natDictSet d k v = d ++ [(k, v)] := by
  unfold natDictSet
  have : d.find? (fun p => p.1 = k) = none := by
    rw [List.find?_eq_none]
    intro p hp
    simpa using h p hp
  simp [this]

theorem _register_nodes_succ (n : Nat) (st : LinkState) :
    _register_nodes (n + 1) st =
      (natDictSet (_register_nodes n st).1
          ((_register_nodes n st).2.create_node.1) n,
        (_register_nodes n st).2.create_node.2) := by
  unfold _register_nodes
  rw [List.range_succ, List.foldl_append]
  rfl

/-- Closed form of `_register_nodes`: assuming `create_node` hands out
pairwise-distinct ids, the mapping lists `(id of i-th call, i)` for
`i = 0, …, num_nodes−1` in order, the state's `gen` is unchanged, and the
registered-id list grows by exactly the handed-out ids. -/
theorem _register_nodes_spec (num_nodes : Nat) (st : LinkState)
    (hinj : ∀ i j, i < num_nodes → j < num_nodes →
      st.gen (st.created.length + i) = st.gen (st.created.length + j) → i = j) :
    (_register_nodes num_nodes st).1
        = (List.range num_nodes).map (fun i => (st.gen (st.created.length + i), i)) ∧
      (_register_nodes num_nodes st).2.gen = st.gen ∧
      (_register_nodes num_nodes st).2.created
        = st.created ++ (List.range num_nodes).map (fun i => st.gen (st.created.length + i)) := by
  induction num_nodes with
  | zero => exact ⟨rfl, rfl, by simp [_register_nodes]⟩
  | succ n ih =>
    obtain ⟨hm, hg, hc⟩ := ih (fun i j hi hj h => hinj i j (by omega) (by omega) h)
    have hlen : (_register_nodes n st).2.created.length = st.created.length + n := by
      rw [hc]; simp
    have hkey : (_register_nodes n st).2.create_node.1 = st.gen (st.created.length + n) := by
      simp [LinkState.create_node, hg, hlen]
    refine ⟨?_, ?_, ?_⟩
    · rw [_register_nodes_succ, hkey, hm, natDictSet_of_fresh, List.range_succ]
      · simp
      · intro p hp
        simp only [List.mem_map, List.mem_range] at hp
        obtain ⟨i, hi, rfl⟩ := hp
        intro hEq
        have := hinj i n (by omega) (by omega) hEq
        omega
    · rw [_register_nodes_succ]
      simp [LinkState.create_node, hg]
    · rw [_register_nodes_succ]
      simp only [LinkState.create_node]
      rw [hg, hlen, hc, List.range_succ]
      simp

/-- Under the freshness contract, the node ids of the mapping are pairwise
distinct. -/
theorem _register_nodes_keys_nodup (num_nodes : Nat) (st : LinkState)
    (hinj : ∀ i j, i < num_nodes → j < num_nodes →
      st.gen (st.created.length + i) = st.gen (st.created.length + j) → i = j) :
    ((_register_nodes num_nodes st).1.map Prod.fst).Nodup := by
  obtain ⟨hm, -, -⟩ := _register_nodes_spec num_nodes st hinj
  rw [hm, List.map_map]
  refine List.Nodup.map_on ?_ (List.nodup_range _)
  intro i hi j hj h
  simp only [List.mem_range] at hi hj
  simpa using hinj i j hi hj (by simpa using h)

/-- C2: under the freshness contract on `state.create_node()`,
`_register_nodes(num_nodes, state_factory)` returns a mapping with exactly
`num_nodes` entries, whose partition indices are exactly `0, …, num_nodes−1`
in order, whose `i`-th entry maps the id returned by the `i`-th `create_node`
call to partition index `i`, and whose node ids are pairwise distinct — a
deterministic bijection between registered ids and `[0, num_nodes)`. -/
theorem register_nodes_partition_bijection (num_nodes : Nat) (st : LinkState)
    (hinj : ∀ i j, i < num_nodes → j < num_nodes →
      st.gen (st.created.length + i) = st.gen (st.created.length + j) → i = j) :
    (_register_nodes num_nodes st).1.length = num_nodes ∧
      (_register_nodes num_nodes st).1
        = (List.range num_nodes).map (fun i => (st.gen (st.created.length + i), i)) ∧
      (_register_nodes num_nodes st).1.map Prod.snd = List.range num_nodes ∧
      ((_register_nodes num_nodes st).1.map Prod.fst).Nodup := by
  obtain ⟨hm, -, -⟩ := _register_nodes_spec num_nodes st hinj
  exact ⟨by rw [hm]; simp, hm, by rw [hm]; simp [Function.comp_def],
    _register_nodes_keys_nodup num_nodes st hinj⟩

/-- Witness for C2: three nodes registered against an identity allocator. -/
theorem register_nodes_partition_bijection_witness :
    (_register_nodes 3 ⟨fun n => n, []⟩).1 = [(0, 0), (1, 1), (2, 2)] := by
  have h := register_nodes_partition_bijection 3 ⟨fun n => n, []⟩
    (fun i j _ _ h => by simpa using h)
  rw [h.2.1]
  decide

/-- Each `NodeState()` call constructs a fresh object; objects are identified
by an allocation number so that sharing is expressible. -/
abbrev NodeStateId := Nat

/-- The loop `for node_id in nodes_mapping: node_states[node_id] = NodeState()`
from `start_vce`, threading the allocation counter for the fresh `NodeState()`
objects. -/
def buildNodeStatesAux (keys : List Nat) (acc : List (Nat × NodeStateId))
    (next : NodeStateId) : List (Nat × NodeStateId) :=
  match keys with
  | [] => acc
  | k :: rest => buildNodeStatesAux rest (natDictSet acc k next) (next + 1)

/-- Construction of the `node_states` dict of `start_vce`, iterating the keys
of `nodes_mapping` in order. -/
def buildNodeStates (keys : List Nat) : List (Nat × NodeStateId) :=
  buildNodeStatesAux keys [] 0

/-- The failure mode of `start_vce` modelled here: `json.loads` raising on an
invalid `backend_config_json_str`. -/
inductive VceError
  | jsonDecodeError
deriving DecidableEq, Repr

/-- The data `start_vce` has set up once registration and per-node state
construction succeeded. -/
structure VceSetup where
  nodes_mapping : List (Nat × Nat)
  node_states : List (Nat × NodeStateId)
deriving DecidableEq, Repr

/-- The setup phase of `start_vce` from `vce_api.py`: register
`num_supernodes` nodes, build the `node_states` dict with one fresh
`NodeState()` per node id of the mapping, then load the backend config with
`json.loads(backend_config_json_str)`.  `json.loads` is Python standard
library, modelled by the `parseJson` parameter; when it fails the exception
propagates, leaving the registrations already made in the returned state. -/
def start_vce (num_supernodes : Nat) (backend_config_json_str : String)
    (parseJson : String → Option Unit) (st : LinkState) :
    Except VceError VceSetup × LinkState :=
  let r := _register_nodes num_supernodes st
  let node_states := buildNodeStates (r.1.map Prod.fst)
  match parseJson backend_config_json_str with
  | none => (Except.error VceError.jsonDecodeError, r.2)
  | some _ => (Except.ok ⟨r.1, node_states⟩, r.2)

theorem buildNodeStatesAux_spec (keys : List Nat) (acc : List (Nat × NodeStateId))
    (next : NodeStateId) (hnd : keys.Nodup) (hfresh : ∀ p ∈ acc, p.1 ∉ keys) :
    buildNodeStatesAux keys acc next = acc ++ keys.zip (List.range' next keys.length) := by
  induction keys generalizing acc next with
  | nil => simp [buildNodeStatesAux]
  | cons k rest ih =>
    rw [buildNodeStatesAux]
    rw [natDictSet_of_fresh acc k next
      (fun p hp => by have := hfresh p hp; simp at this; exact this.1)]
    rw [ih (acc ++ [(k, next)]) (next + 1) (List.Nodup.of_cons hnd) ?fresh]
    · simp [List.range', List.zip]
    case fresh =>
      intro p hp
      rcases List.mem_append.mp hp with hp | hp
      · have := hfresh p hp
        simp at this
        exact this.2
      · simp at hp
        rw [hp]
        exact (List.nodup_cons.mp hnd).1

/-- On a duplicate-free key list, `node_states` binds exactly those keys, in
order, each to a distinct freshly allocated `NodeState`. -/
theorem buildNodeStates_spec (keys : List Nat) (hnd : keys.Nodup) :
    buildNodeStates keys = keys.zip (List.range' 0 keys.length) := by
  unfold buildNodeStates
  rw [buildNodeStatesAux_spec keys [] 0 hnd (by simp)]
  simp

/-- C6: after the setup phase of `start_vce` (under the freshness contract on
`create_node`), the `node_states` dict has exactly the key set of the
node-to-partition mapping, in the same order, and binds each node id to its
own `NodeState` object — no `NodeState` is shared between two node ids. -/
theorem start_vce_node_state_isolation (num_supernodes : Nat)
    (backend_config_json_str : String) (parseJson : String → Option Unit)
    (st : LinkState) (setup : VceSetup)
    (hinj : ∀ i j, i < num_supernodes → j < num_supernodes →
      st.gen (st.created.length + i) = st.gen (st.created.length + j) → i = j)
    (hok : (start_vce num_supernodes backend_config_json_str parseJson st).1
      = Except.ok setup) :
    setup.node_states.map Prod.fst = setup.nodes_mapping.map Prod.fst ∧
      (setup.node_states.map Prod.snd).Nodup := by
  have hkeys := _register_nodes_keys_nodup num_supernodes st hinj
  unfold start_vce at hok
  revert hok
  cases hp : parseJson backend_config_json_str with
  | none => intro hok; exact absurd hok (by simp)
  | some u =>
    intro hok
    simp only [Except.ok.injEq] at hok
    subst hok
    set keys := (_register_nodes num_supernodes st).1.map Prod.fst with hk
    have hzip : buildNodeStates keys = keys.zip (List.range' 0 keys.length) :=
      buildNodeStates_spec keys hkeys
    constructor
    · rw [hzip, List.map_fst_zip]
      simp
    · rw [hzip, List.map_snd_zip]
      · exact List.nodup_range' _ _
      · simp

/-- Witness for C6: two nodes against an identity allocator and a config that
parses; the node-states dict binds node ids 0 and 1 to the two distinct
`NodeState` objects 0 and 1. -/
theorem start_vce_node_state_isolation_witness :
    [(0, 0), (1, 1)].map (Prod.fst (α := Nat) (β := Nat))
        = [(0, 0), (1, 1)].map Prod.fst ∧
      ([(0, 0), (1, 1)].map (Prod.snd (α := Nat) (β := Nat))).Nodup :=
  start_vce_node_state_isolation 2 "42" (fun _ => some ()) ⟨fun n => n, []⟩
    ⟨[(0, 0), (1, 1)], [(0, 0), (1, 1)]⟩
    (fun i j _ _ h => by simpa using h)
    (by rfl)

/-- `_register_nodes` always registers exactly `num_nodes` fresh ids in the
state, with no assumption on the allocator. -/
theorem _register_nodes_created_length (n : Nat) (st : LinkState) :
    (_register_nodes n st).2.created.length = st.created.length + n := by
  induction n with
  | zero => rfl
  | succ n ih =>
    rw [_register_nodes_succ]
    simp [LinkState.create_node, ih]
    omega

/-- C9: when `backend_config_json_str` is not valid JSON, `start_vce` fails
with the JSON decoding error, and the failure is not atomic with respect to
registration: the returned state is exactly the post-registration state, which
holds `num_supernodes` more registered ids than before the call. -/
theorem start_vce_invalid_json_not_atomic (num_supernodes : Nat)
    (backend_config_json_str : String) (parseJson : String → Option Unit)
    (st : LinkState) (hbad : parseJson backend_config_json_str = none) :
    (start_vce num_supernodes backend_config_json_str parseJson st).1
        = Except.error VceError.jsonDecodeError ∧
      (start_vce num_supernodes backend_config_json_str parseJson st).2
        = (_register_nodes num_supernodes st).2 ∧
      (start_vce num_supernodes backend_config_json_str parseJson st).2.created.length
        = st.created.length + num_supernodes := by
  have hout : start_vce num_supernodes backend_config_json_str parseJson st
      = (Except.error VceError.jsonDecodeError, (_register_nodes num_supernodes st).2) := by
    unfold start_vce
    rw [hbad]
  refine ⟨by rw [hout], by rw [hout], ?_⟩
  rw [hout]
  exact _register_nodes_created_length num_supernodes st

/-- Witness for C9: two supernodes, a parse that rejects the config string. -/
theorem start_vce_invalid_json_not_atomic_witness :
    (start_vce 2 "oops" (fun _ => none) ⟨fun n => n, []⟩).1
        = Except.error VceError.jsonDecodeError ∧
      (start_vce 2 "oops" (fun _ => none) ⟨fun n => n, []⟩).2
        = (_register_nodes 2 ⟨fun n => n, []⟩).2 ∧
      (start_vce 2 "oops" (fun _ => none) ⟨fun n => n, []⟩).2.created.length = 0 + 2 :=
  start_vce_invalid_json_not_atomic 2 "oops" (fun _ => none) ⟨fun n => n, []⟩ rfl

/-! ### The coordinator rendezvous `send_and_receive` (spec §4.3)

`driver.send_and_receive` is flwr framework code outside the three source
files of this repository; only its call site in `main` is present.  The
definitions below are therefore modelled from the spec. -/

/-- Modelled from the spec: the status values of a task in the Task Store,
`Pending → InFlight → (Replied | Errored | TimedOut)`. -/
inductive TaskStatus
  | pending
  | inFlight
  | replied (payload : Nat)
  | errored (cause : Nat)
  | timedOut
deriving DecidableEq, Repr

/-- A status is terminal iff it is `Replied`, `Errored` or `TimedOut`. -/
def TaskStatus.isTerminal : TaskStatus → Bool
  | .replied _ => true
  | .errored _ => true
  | .timedOut => true
  | _ => false

/-- Modelled from the spec: a task record of the Task Store (payloads are
opaque, kept here as the fields the rendezvous claim observes). -/
structure Task where
  task_id : Nat
  group_id : String
  dst : Nat
  status : TaskStatus
deriving DecidableEq, Repr

/-- Modelled from the spec: the Task Store — a ledger of tasks plus a fresh-id
source for `create_task`. -/
structure Store where
  nextId : Nat
  tasks : List Task
deriving DecidableEq, Repr

/-- A task-creation request handed to the rendezvous: the destination node. -/
structure TaskRequest where
  dst : Nat
deriving DecidableEq, Repr

/-- A reply observed for a task: a result payload or an error with cause. -/
inductive ReplyOutcome
  | ok (payload : Nat)
  | err (cause : Nat)
deriving DecidableEq, Repr

/-- The terminal status a task reaches when its reply-or-absence within the
timeout is as given: a reply or error becomes `Replied`/`Errored`, absence is
forced to `TimedOut`. -/
def resolveStatus : Option ReplyOutcome → TaskStatus
  | some (ReplyOutcome.ok p) => TaskStatus.replied p
  | some (ReplyOutcome.err c) => TaskStatus.errored c
  | none => TaskStatus.timedOut

/-- Modelled from the spec: step 1 of the rendezvous — create all tasks of
the group atomically, with consecutive fresh ids and initial status
`Pending`. -/
def groupTasks (reqs : List TaskRequest) (gid : String) (base : Nat) : List Task :=
  match reqs with
  | [] => []
  | r :: rest => ⟨base, gid, r.dst, TaskStatus.pending⟩ :: groupTasks rest gid (base + 1)

/-- Modelled from the spec: delivery of one arrival to one store record — a
compare-and-swap, only a non-terminal task of the group (`[lo, hi)`)
transitions to `Replied`/`Errored`. -/
def deliverTask (lo hi : Nat) (arriveById : Nat → Option ReplyOutcome)
    (t : Task) : Task :=
  if lo ≤ t.task_id ∧ t.task_id < hi ∧ t.status.isTerminal = false then
    match arriveById t.task_id with
    | some o => { t with status := resolveStatus (some o) }
    | none => t
  else t

/-- Modelled from the spec: step 2 of the rendezvous — the replies that
arrive within the timeout are submitted to the store; `arriveById tid` is the
reply-or-absence within the timeout for the group's task `tid`. -/
def deliverArrivals (lo hi : Nat) (arriveById : Nat → Option ReplyOutcome)
    (tasks : List Task) : List Task :=
  tasks.map (deliverTask lo hi arriveById)

/-- Modelled from the spec: the timeout transition of one store record — a
task of the group still `Pending`/`InFlight` is forced to `TimedOut`. -/
def reapTask (lo hi : Nat) (t : Task) : Task :=
  if lo ≤ t.task_id ∧ t.task_id < hi ∧
      (t.status = TaskStatus.pending ∨ t.status = TaskStatus.inFlight) then
    { t with status := TaskStatus.timedOut }
  else t

/-- Modelled from the spec: step 3 of the rendezvous — at the timeout every
task of the group still `Pending`/`InFlight` is forced to `TimedOut`. -/
def reapDeadline (lo hi : Nat) (tasks : List Task) : List Task :=
  tasks.map (reapTask lo hi)

/-- Modelled from the spec: `send_and_receive(tasks, timeout)` (§4.3) —
create the group atomically, let replies arriving within the timeout resolve
their tasks, force the rest to `TimedOut`, and return one reply-or-absence
per requested task in the caller's input order, read back from the store.
`arrive i` is the reply-or-absence within the timeout for the `i`-th
requested task. -/
def send_and_receive (reqs : List TaskRequest) (group_id : String)
    (arrive : Nat → Option ReplyOutcome) (st : Store) :
    List (Option ReplyOutcome) × Store :=
  let base := st.nextId
  let hi := base + reqs.length
  let created := groupTasks reqs group_id base
  let delivered := deliverArrivals base hi (fun tid => arrive (tid - base))
    (st.tasks ++ created)
  let reaped := reapDeadline base hi delivered
  let st3 : Store := ⟨hi, reaped⟩
  let results := (List.range reqs.length).map (fun i =>
    match st3.tasks.find? (fun t => t.task_id = base + i) with
    | some t =>
      match t.status with
      | TaskStatus.replied p => some (ReplyOutcome.ok p)
      | TaskStatus.errored c => some (ReplyOutcome.err c)
      | _ => none
    | none => none)
  (results, st3)

/-- The group's tasks once delivery and the deadline reaping have run: the
task created with id `base + i` carries the terminal status determined by its
arrival. -/
def groupResolved (arriveById : Nat → Option ReplyOutcome) (reqs : List TaskRequest)
    (gid : String) (base : Nat) : List Task :=
  match reqs with
  | [] => []
  | r :: rest =>
    ⟨base, gid, r.dst, resolveStatus (arriveById base)⟩
      :: groupResolved arriveById rest gid (base + 1)

theorem deliverArrivals_append (lo hi : Nat) (a : Nat → Option ReplyOutcome)
    (l₁ l₂ : List Task) :
    deliverArrivals lo hi a (l₁ ++ l₂)
      = deliverArrivals lo hi a l₁ ++ deliverArrivals lo hi a l₂ :=
  List.map_append _ _ _

theorem reapDeadline_append (lo hi : Nat) (l₁ l₂ : List Task) :
    reapDeadline lo hi (l₁ ++ l₂) = reapDeadline lo hi l₁ ++ reapDeadline lo hi l₂ :=
  List.map_append _ _ _

/-- A task outside the group's id range is untouched by delivery and
reaping. -/
theorem reap_deliver_task_old (lo hi : Nat) (a : Nat → Option ReplyOutcome)
    (t : Task) (h : t.task_id < lo) :
    reapTask lo hi (deliverTask lo hi a t) = t := by
  have hd : deliverTask lo hi a t = t := by
    unfold deliverTask
    exact if_neg (fun hc => absurd hc.1 (by omega))
  rw [hd]
  unfold reapTask
  exact if_neg (fun hc => absurd hc.1 (by omega))

/-- Tasks outside the group's id range are untouched by delivery and
reaping. -/
theorem deliver_reap_old (lo hi : Nat) (a : Nat → Option ReplyOutcome)
    (l : List Task) (h : ∀ t ∈ l, t.task_id < lo) :
    reapDeadline lo hi (deliverArrivals lo hi a l) = l := by
  unfold reapDeadline deliverArrivals
  rw [List.map_map]
  have hcongr : ∀ t ∈ l, (reapTask lo hi ∘ deliverTask lo hi a) t = id t := by
    intro t ht
    simp only [Function.comp_apply, id_eq]
    exact reap_deliver_task_old lo hi a t (h t ht)
  rw [List.map_congr_left hcongr, List.map_id]

/-- A freshly created task of the group resolves, through delivery and the
deadline reaping, to the status determined by its arrival. -/
theorem reap_deliver_task_group (lo hi : Nat) (a : Nat → Option ReplyOutcome)
    (gid : String) (d tid : Nat) (hlo : lo ≤ tid) (hhi : tid < hi) :
    reapTask lo hi (deliverTask lo hi a ⟨tid, gid, d, TaskStatus.pending⟩)
      = ⟨tid, gid, d, resolveStatus (a tid)⟩ := by
  have hd : deliverTask lo hi a ⟨tid, gid, d, TaskStatus.pending⟩
      = ⟨tid, gid, d,
          match a tid with
          | some o => resolveStatus (some o)
          | none => TaskStatus.pending⟩ := by
    unfold deliverTask
    rw [if_pos ⟨hlo, hhi, rfl⟩]
    cases a tid with
    | none => rfl
    | some o => rfl
  rw [hd]
  cases harr : a tid with
  | none =>
    unfold reapTask
    rw [if_pos ⟨hlo, hhi, by simp⟩]
    simp [resolveStatus]
  | some o =>
    unfold reapTask
    cases o with
    | ok p => rw [if_neg (fun hc => by simp [resolveStatus] at hc)]
    | err c => rw [if_neg (fun hc => by simp [resolveStatus] at hc)]

/-- Running delivery then the deadline reaping over the freshly created
group resolves every task to the status determined by its arrival. -/
theorem deliver_reap_group (a : Nat → Option ReplyOutcome) (gid : String)
    (lo hi : Nat) (reqs : List TaskRequest) (base : Nat)
    (h1 : lo ≤ base) (h2 : base + reqs.length ≤ hi) :
    reapDeadline lo hi (deliverArrivals lo hi a (groupTasks reqs gid base))
      = groupResolved a reqs gid base := by
  induction reqs generalizing base with
  | nil => rfl
  | cons r rest ih =>
    have hbase_lt : base < hi := by
      simp only [List.length_cons] at h2
      omega
    have htail := ih (base + 1) (by omega) (by simp only [List.length_cons] at h2; omega)
    simp only [groupTasks, groupResolved, deliverArrivals, reapDeadline, List.map_cons]
      at htail ⊢
    rw [reap_deliver_task_group lo hi a gid r.dst base h1 hbase_lt, htail]

/-- `find?` by a group id skips every pre-existing (smaller-id) task. -/
theorem find?_append_of_lt (l l₂ : List Task) (base id : Nat)
    (h : ∀ t ∈ l, t.task_id < base) (hid : base ≤ id) :
    (l ++ l₂).find? (fun t => t.task_id = id) = l₂.find? (fun t => t.task_id = id) := by
  induction l with
  | nil => rfl
  | cons t ts ih =>
    have hlt : t.task_id < base := h t (by simp)
    rw [List.cons_append, List.find?_cons_of_neg, ih (fun u hu => h u (by simp [hu]))]
    simp
    omega

/-- Looking up the `i`-th created task in the resolved group finds it, with
destination from the `i`-th request and status from its arrival. -/
theorem find?_groupResolved (a : Nat → Option ReplyOutcome)
    (reqs : List TaskRequest) (gid : String) (base i : Nat) (r : TaskRequest)
    (hget : reqs.get? i = some r) :
    (groupResolved a reqs gid base).find? (fun t => t.task_id = base + i)
      = some ⟨base + i, gid, r.dst, resolveStatus (a (base + i))⟩ := by
  induction reqs generalizing base i with
  | nil => simp at hget
  | cons q rest ih =>
    cases i with
    | zero =>
      simp only [List.get?_cons_zero, Option.some.injEq] at hget
      subst hget
      rw [groupResolved, List.find?_cons_of_pos _ (by simp)]
      simp
    | succ i =>
      rw [groupResolved, List.find?_cons_of_neg _ (by simp)]
      have := ih (base + 1) i (by simpa using hget)
      rw [show base + 1 + i = base + (i + 1) by omega] at this
      exact this

/-- Splitting an option list by `isNone`/`isSome` partitions its length. -/
theorem filter_isNone_isSome_length (l : List (Option ReplyOutcome)) :
    (l.filter (fun o => o.isNone)).length + (l.filter (fun o => o.isSome)).length
      = l.length := by
  induction l with
  | nil => rfl
  | cons o t ih => cases o <;> simp [List.filter] <;> omega

/-- C1: `send_and_receive` with `N` requested tasks returns exactly one
reply-or-absence per requested task in the caller's input order; if `k`
participants reply (with a result or an error) within the timeout, exactly
`k` entries are replies/errors and `N − k` are absences; and every unresolved
task is `TimedOut` in the store afterwards — present, never silently
dropped. -/
theorem send_and_receive_rendezvous (reqs : List TaskRequest) (group_id : String)
    (arrive : Nat → Option ReplyOutcome) (st : Store)
    (hfresh : ∀ t ∈ st.tasks, t.task_id < st.nextId) :
    (send_and_receive reqs group_id arrive st).1.length = reqs.length ∧
      (send_and_receive reqs group_id arrive st).1
        = (List.range reqs.length).map arrive ∧
      ((send_and_receive reqs group_id arrive st).1.filter (fun o => o.isSome)).length
        = ((List.range reqs.length).filter (fun i => (arrive i).isSome)).length ∧
      ((send_and_receive reqs group_id arrive st).1.filter (fun o => o.isNone)).length
        = reqs.length
          - ((List.range reqs.length).filter (fun i => (arrive i).isSome)).length ∧
      ∀ i, i < reqs.length → arrive i = none →
        ((send_and_receive reqs group_id arrive st).2.tasks.find?
            (fun t => t.task_id = st.nextId + i)).map Task.status
          = some TaskStatus.timedOut := by
  have hstore : (send_and_receive reqs group_id arrive st).2.tasks
      = st.tasks ++ groupResolved (fun tid => arrive (tid - st.nextId)) reqs
          group_id st.nextId := by
    unfold send_and_receive
    simp only
    rw [deliverArrivals_append, reapDeadline_append,
      deliver_reap_old _ _ _ _ hfresh,
      deliver_reap_group _ _ _ _ _ _ (Nat.le_refl _) (Nat.le_refl _)]
  have hfind : ∀ i, i < reqs.length → ∀ r, reqs.get? i = some r →
      (send_and_receive reqs group_id arrive st).2.tasks.find?
          (fun t => t.task_id = st.nextId + i)
        = some ⟨st.nextId + i, group_id, r.dst, resolveStatus (arrive i)⟩ := by
    intro i hi r hr
    rw [hstore,
      find?_append_of_lt _ _ st.nextId _ hfresh (Nat.le_add_right _ _),
      find?_groupResolved _ _ _ _ _ _ hr]
    simp
  have hres : (send_and_receive reqs group_id arrive st).1
      = (List.range reqs.length).map arrive := by
    have hsr : (send_and_receive reqs group_id arrive st).1
        = (List.range reqs.length).map (fun i =>
            match (send_and_receive reqs group_id arrive st).2.tasks.find?
                (fun t => t.task_id = st.nextId + i) with
            | some t =>
              match t.status with
              | TaskStatus.replied p => some (ReplyOutcome.ok p)
              | TaskStatus.errored c => some (ReplyOutcome.err c)
              | _ => none
            | none => none) := rfl
    rw [hsr]
    apply List.map_congr_left
    intro i hi
    have hilt : i < reqs.length := List.mem_range.mp hi
    have hr : reqs.get? i = some (reqs.get ⟨i, hilt⟩) := List.get?_eq_get hilt
    rw [hfind i hilt _ hr]
    cases harr : arrive i with
    | none => simp [resolveStatus]
    | some o => cases o <;> simp [resolveStatus]
  have hlen : (send_and_receive reqs group_id arrive st).1.length = reqs.length := by
    rw [hres]
    simp
  have hsome : ((send_and_receive reqs group_id arrive st).1.filter
        (fun o => o.isSome)).length
      = ((List.range reqs.length).filter (fun i => (arrive i).isSome)).length := by
    rw [hres, List.filter_map]
    simp [Function.comp_def]
  refine ⟨hlen, hres, hsome, ?_, ?_⟩
  · have := filter_isNone_isSome_length (send_and_receive reqs group_id arrive st).1
    omega
  · intro i hi harr
    have hr : reqs.get? i = some (reqs.get ⟨i, hi⟩) := List.get?_eq_get hi
    rw [hfind i hi _ hr, harr]
    simp [resolveStatus]

/-- Witness for C1: three tasks against an empty store, two participants
replying (one success, one error), one never replying: the result has the
two replies and one absence in input order, and the third task is `TimedOut`
in the store. -/
theorem send_and_receive_rendezvous_witness :
    (send_and_receive [⟨5⟩, ⟨7⟩, ⟨9⟩] "1"
        (fun i => if i = 0 then some (ReplyOutcome.ok 1)
          else if i = 1 then some (ReplyOutcome.err 2) else none)
        ⟨0, []⟩).1
      = [some (ReplyOutcome.ok 1), some (ReplyOutcome.err 2), none] ∧
      ((send_and_receive [⟨5⟩, ⟨7⟩, ⟨9⟩] "1"
          (fun i => if i = 0 then some (ReplyOutcome.ok 1)
            else if i = 1 then some (ReplyOutcome.err 2) else none)
          ⟨0, []⟩).2.tasks.find? (fun t => t.task_id = 0 + 2)).map Task.status
        = some TaskStatus.timedOut := by
  have h := send_and_receive_rendezvous [⟨5⟩, ⟨7⟩, ⟨9⟩] "1"
    (fun i => if i = 0 then some (ReplyOutcome.ok 1)
      else if i = 1 then some (ReplyOutcome.err 2) else none)
    ⟨0, []⟩ (by simp)
  refine ⟨?_, h.2.2.2.2 2 (by decide) (by decide)⟩
  rw [h.2.1]
  decide

/-! ### `dev/build-docker-image-matrix.py` -/

/-- The `DistroName` str-enum. -/
inductive DistroName
  | alpine
  | ubuntu
deriving DecidableEq, Repr

/-- `DistroName.<member>.value`. -/
def DistroName.value : DistroName → String
  | .alpine => "alpine"
  | .ubuntu => "ubuntu"

/-- The `Distro` dataclass. -/
structure Distro where
  name : DistroName
  version : String
deriving DecidableEq, Repr

def LATEST_SUPPORTED_PYTHON_VERSION : String := "3.11"

def SUPPORTED_PYTHON_VERSIONS : List String :=
  ["3.9", "3.10", LATEST_SUPPORTED_PYTHON_VERSION]

def DOCKERFILE_ROOT : String := "src/docker"

/-- The `extra` field of a `Variant`: a `CpuVariant()` or a
`CudaVariant(version)` instance. -/
inductive VariantExtra
  | cpu
  | cuda (version : String)
deriving DecidableEq, Repr

/-- `extra.version` of a `CudaVariant`; never read on a `CpuVariant` by the
source (doing so would raise `AttributeError`). -/
def VariantExtra.version : VariantExtra → String
  | .cpu => ""
  | .cuda v => v

/-- The `Variant` dataclass, with its two callable fields. -/
structure Variant where
  distro : Distro
  file_dir_fn : Distro → VariantExtra → String
  tag_fn : Distro → String → String → VariantExtra → String
  extra : VariantExtra

def Variant.file_dir (v : Variant) : String :=
  v.file_dir_fn v.distro v.extra

def Variant.tag (v : Variant) (flwr_version python_version : String) : String :=
  v.tag_fn v.distro flwr_version python_version v.extra

def LATEST_SUPPORTED_CUDA_VERSIONS : String := "12.4"

def CUDA_VERSIONS : List String :=
  ["11.2", "11.8", "12.1", "12.3", LATEST_SUPPORTED_CUDA_VERSIONS]

/-- `UBUNTU_VARIANTS`: ubuntu base images for each supported python version. -/
def UBUNTU_VARIANTS : List Variant :=
  [⟨⟨DistroName.ubuntu, "24.04"⟩,
    fun distro _ => DOCKERFILE_ROOT ++ "/base/" ++ distro.name.value,
    fun distro flwr_version python_version _ =>
      flwr_version ++ "-py" ++ python_version ++ "-" ++ distro.name.value ++ distro.version,
    VariantExtra.cpu⟩]

/-- `ALPINE_VARIANTS`: alpine base images for the latest supported python
version. -/
def ALPINE_VARIANTS : List Variant :=
  [⟨⟨DistroName.alpine, "3.19"⟩,
    fun distro _ => DOCKERFILE_ROOT ++ "/base/" ++ distro.name.value,
    fun distro flwr_version python_version _ =>
      flwr_version ++ "-py" ++ python_version ++ "-" ++ distro.name.value ++ distro.version,
    VariantExtra.cpu⟩]

/-- `CUDA_VARIANTS`: ubuntu cuda base images for each supported python and
cuda version. -/
def CUDA_VARIANTS : List Variant :=
  CUDA_VERSIONS.map (fun version =>
    ⟨⟨DistroName.ubuntu, "24.04"⟩,
      fun distro _ => DOCKERFILE_ROOT ++ "/base/" ++ distro.name.value ++ "-cuda",
      fun distro flwr_version python_version extra =>
        flwr_version ++ "-py" ++ python_version ++ "-cu" ++ extra.version ++ "-"
          ++ distro.name.value ++ distro.version,
      VariantExtra.cuda version⟩)

/-- The `BaseImage` dataclass. -/
structure BaseImage where
  variant : Variant
  python_version : String
  namespace_repository : String
  file_dir : String
  tag : String
  flwr_version : String

/-- `new_base_image(flwr_version, python_version, variant)`. -/
def new_base_image (flwr_version python_version : String) (variant : Variant) :
    BaseImage :=
  ⟨variant, python_version, "flwr/base", variant.file_dir,
    variant.tag flwr_version python_version, flwr_version⟩

/-- `generate_base_images`: the comprehension iterates variants in the outer
loop and python versions in the inner loop. -/
def generate_base_images (flwr_version : String) (python_versions : List String)
    (variants : List Variant) : List BaseImage :=
  (variants.map (fun variant =>
    python_versions.map (fun python_version =>
      new_base_image flwr_version python_version variant))).join

/-- The `BinaryImage` dataclass; `tags` is the `"\n".join(tags)` string. -/
structure BinaryImage where
  namespace_repository : String
  file_dir : String
  base_image : String
  tags : String
deriving DecidableEq, Repr

/-- `new_binary_image(name, base_image, tags_fn)`. -/
def new_binary_image (name : String) (base_image : BaseImage)
    (tags_fn : Option (BaseImage → List String)) : BinaryImage :=
  let tags : List String :=
    match tags_fn with
    | none => []
    | some f => f base_image
  ⟨"flwr/" ++ name, DOCKERFILE_ROOT ++ "/" ++ name, base_image.tag,
    String.intercalate "\n" tags⟩

/-- A Python value as produced by a filter lambda: the supernode filter
returns a tuple, not a bool, so truthiness must be modelled. -/
inductive PyValue
  | bool (b : Bool)
  | tuple (elems : List Bool)
deriving DecidableEq, Repr

/-- Python truthiness: a bool is itself; a tuple is truthy iff nonempty. -/
def PyValue.truthy : PyValue → Bool
  | .bool b => b
  | .tuple es => !es.isEmpty

/-- Python `X or Y`: returns `X` when `X` is truthy, else `Y`. -/
def pyOr (a b : PyValue) : PyValue :=
  if a.truthy then a else b

/-- `generate_binary_images(name, base_images, tags_fn, filter)`: keep the
base images on which the filter is truthy (default: all) and build one binary
image from each. -/
def generate_binary_images (name : String) (base_images : List BaseImage)
    (tags_fn : Option (BaseImage → List String))
    (filterFn : Option (BaseImage → PyValue)) : List BinaryImage :=
  let f := filterFn.getD (fun _ => PyValue.bool true)
  (base_images.filter (fun image => (f image).truthy)).map
    (fun image => new_binary_image name image tags_fn)

/-- `tag_latest_alpine_with_flwr_version(image)`. -/
def tag_latest_alpine_with_flwr_version (image : BaseImage) : List String :=
  if image.variant.distro.name = DistroName.alpine ∧
      image.python_version = LATEST_SUPPORTED_PYTHON_VERSION then
    [image.tag, image.flwr_version]
  else
    [image.tag]

/-- The filter lambda passed to `generate_binary_images` for the "supernode"
images: its first `or`-operand is a ONE-ELEMENT TUPLE — the condition
followed by a trailing comma inside parentheses — not a bool. -/
def supernodeFilter (image : BaseImage) : PyValue :=
  pyOr
    (PyValue.tuple
      [decide (image.variant.distro.name = DistroName.ubuntu) &&
        decide (image.variant.extra = VariantExtra.cpu)])
    (PyValue.bool
      (decide (image.variant.distro.name = DistroName.alpine) &&
        decide (image.python_version = LATEST_SUPPORTED_PYTHON_VERSION)))

/-- The `base_images` list assembled by `__main__`: ubuntu for every
supported python version, alpine for the latest, cuda for every supported
python and cuda version. -/
def base_images (flwr_version : String) : List BaseImage :=
  generate_base_images flwr_version SUPPORTED_PYTHON_VERSIONS UBUNTU_VARIANTS
    ++ generate_base_images flwr_version [LATEST_SUPPORTED_PYTHON_VERSION] ALPINE_VARIANTS
    ++ generate_base_images flwr_version SUPPORTED_PYTHON_VERSIONS CUDA_VARIANTS

/-- The "supernode" entry of the binary image matrix built by `__main__`. -/
def supernode_binary_images (flwr_version : String) : List BinaryImage :=
  generate_binary_images "supernode" (base_images flwr_version)
    (some tag_latest_alpine_with_flwr_version) (some supernodeFilter)

/-- C10: the supernode filter is truthy on every base image (its first
operand is a one-element tuple), so the matrix holds exactly one supernode
binary image per base image — all 19 of them (3 ubuntu, 1 alpine, 15 cuda,
covering every supported python version), none filtered out. -/
theorem supernode_filter_keeps_every_base_image (flwr_version : String) :
    (∀ image : BaseImage, (supernodeFilter image).truthy = true) ∧
      supernode_binary_images flwr_version
        = (base_images flwr_version).map
            (fun image => new_binary_image "supernode" image
              (some tag_latest_alpine_with_flwr_version)) ∧
      (supernode_binary_images flwr_version).length
          = (base_images flwr_version).length ∧
      (base_images flwr_version).length = 19 := by
  have htruthy : ∀ image : BaseImage, (supernodeFilter image).truthy = true :=
    fun image => rfl
  have hall : supernode_binary_images flwr_version
      = (base_images flwr_version).map
          (fun image => new_binary_image "supernode" image
            (some tag_latest_alpine_with_flwr_version)) := by
    unfold supernode_binary_images generate_binary_images
    simp only [Option.getD]
    rw [List.filter_eq_self.mpr (fun image _ => htruthy image)]
  refine ⟨htruthy, hall, by rw [hall]; simp, ?_⟩
  simp [base_images, generate_base_images, SUPPORTED_PYTHON_VERSIONS,
    UBUNTU_VARIANTS, ALPINE_VARIANTS, CUDA_VARIANTS, CUDA_VERSIONS]

end Flower
